import Mathlib

/-!
Shallow embedding of HomeShare (src/server.py): path confinement
(`_safe_join`), the resumable `UploadManager`, HTTP range service
(`_send_file`), ZIP assembly (`_send_zip`) and the handler-level
read-only gating and error-status mapping.

Paths are modelled as lists of segments: a client-supplied relative
path string is represented by the list obtained by splitting it on
the separator character, so a leading separator shows up as a leading
empty segment and repeated separators show up as empty segments.
Absolute filesystem paths are likewise segment lists rooted at the
filesystem root.  File contents are lists of bytes (as `Nat`).
Python integers are `Int`.
-/

namespace HomeShare

/-- Errors raised by the engine, one constructor per raise site in
src/server.py:
* `pathEscape` — `PermissionError` in `_safe_join`;
* `sessionNotFound` — `FileNotFoundError` in `_load_state`;
* `sequenceMismatch` — `ValueError` "Unexpected chunk start" in `append_chunk`;
* `invalidRangeEnd` — `ValueError` "Invalid range end" in `append_chunk`;
* `chunkExceedsSize` — `ValueError` "Chunk exceeds declared file size";
* `targetIsDir` — `ValueError` "Target path points to a directory" in `create_session`;
* `targetExists` — `FileExistsError` in `_finalize`;
* `pathNotFound` — `FileNotFoundError` "Path not found" in `_send_zip`;
* `stagingMissing` — `FileNotFoundError` from opening a missing staging file;
* `osError` — any other OS-level failure (parent of target is a regular file). -/
inductive Err where
  | pathEscape
  | sessionNotFound
  | sequenceMismatch
  | invalidRangeEnd
  | chunkExceedsSize
  | targetIsDir
  | targetExists
  | pathNotFound
  | stagingMissing
  | osError
  deriving DecidableEq, Repr

/-- One step of `posixpath.normpath` on a relative path: empty and `.`
segments are dropped; a `..` segment cancels the preceding ordinary
segment, but is kept when there is nothing to cancel (leading `..`
runs survive, as `normpath` keeps them for relative paths). -/
def normStep (acc : List String) (s : String) : List String :=
  if s = "" ∨ s = "." then acc
  else if s = ".." then
    match acc.getLast? with
    | some t => if t = ".." then acc ++ [".."] else acc.dropLast
    | none => [".."]
  else acc ++ [s]

/-- Segment-level `posixpath.normpath` for a relative path (the input has
already had its leading/trailing separators stripped, so leading or
trailing empty segments may still be present and are dropped). -/
def normpathSegs (segs : List String) : List String :=
  segs.foldl normStep []

/-- Lexical canonicalization of an absolute path, the behaviour of
`Path.resolve(strict=False)` on a filesystem without symlinks: walking
from the filesystem root, `..` moves up one level (staying at the root
when already there) and `.`/empty segments are ignored. -/
def resolveStep (acc : List String) (s : String) : List String :=
  if s = "" ∨ s = "." then acc
  else if s = ".." then acc.dropLast
  else acc ++ [s]

/-- Lexical canonicalization of an absolute segment list (symlink-free
`Path.resolve`). -/
def resolveLex (abs : List String) : List String :=
  abs.foldl resolveStep []

/-- Embedding of `_safe_join` (src/server.py:45-62).  `canon` stands for
`Path.resolve(strict=False)`: on a symlink-free filesystem it is
`resolveLex`, but the filesystem may rewrite the path arbitrarily
through symlinks, so it is kept as a parameter.  The steps are:
`relative.strip("/")` (drop leading/trailing empty segments),
`posixpath.normpath`, the `("", ".")` short-circuit to `root`, the
re-split-and-filter (a no-op on `normpath` output, kept for fidelity),
`root.joinpath(*parts)`, canonicalization, and the final
`resolved.relative_to(root)` membership check which raises
`PermissionError` on failure. -/
def safe_join (canon : List String → List String) (root : List String)
    (relative : List String) : Except Err (List String) :=
  let stripped := (relative.dropWhile (· = "")).reverse.dropWhile (· = "") |>.reverse
  let norm := normpathSegs stripped
  let parts := norm.filter (fun p => ¬ (p = "." ∨ p = ""))
  let candidate := if norm = [] then root else root ++ parts
  let resolved := canon candidate
  if root.isPrefixOf resolved then .ok resolved else .error .pathEscape

/-- A node of the share filesystem: a regular file with its byte
content, or a directory with named children. -/
inductive FSNode where
  | file (content : List Nat)
  | dir (children : List (String × FSNode))
  deriving Repr

/-- Look up the node at a relative segment path below `node`. -/
def FSNode.lookup (node : FSNode) : List String → Option FSNode
  | [] => some node
  | s :: rest =>
    match node with
    | .file _ => none
    | .dir ch =>
      match ch.find? (fun c => c.1 = s) with
      | some c => c.2.lookup rest
      | none => none

/-- `Path.is_dir()` at a relative path below `node`. -/
def FSNode.isDir (node : FSNode) (p : List String) : Bool :=
  match node.lookup p with
  | some (.dir _) => true
  | _ => false

/-- `Path.is_file()` at a relative path below `node`. -/
def FSNode.isFile (node : FSNode) (p : List String) : Bool :=
  match node.lookup p with
  | some (.file _) => true
  | _ => false

/-- `Path.exists()` at a relative path below `node`. -/
def FSNode.pathExists (node : FSNode) (p : List String) : Bool :=
  (node.lookup p).isSome

/-- Replace (or add) the child named `s` of a directory child list. -/
def setChild (ch : List (String × FSNode)) (s : String) (n : FSNode) :
    List (String × FSNode) :=
  if ch.any (fun c => c.1 = s) then
    ch.map (fun c => if c.1 = s then (s, n) else c)
  else ch ++ [(s, n)]

/-- `Path.mkdir(parents=True, exist_ok=True)`: create every missing
directory along `p`.  Returns `none` when a regular file is in the way
(Python raises `FileExistsError`/`NotADirectoryError` there). -/
def FSNode.mkdirp (node : FSNode) : List String → Option FSNode
  | [] =>
    match node with
    | .dir _ => some node
    | .file _ => none
  | s :: rest =>
    match node with
    | .file _ => none
    | .dir ch =>
      match ch.find? (fun c => c.1 = s) with
      | some c => (c.2.mkdirp rest).map (fun c2 => .dir (setChild ch s c2))
      | none => ((FSNode.dir []).mkdirp rest).map (fun c2 => .dir (setChild ch s c2))

/-- Write a whole node at relative path `p` (used for `shutil.move` onto
a non-directory destination and for re-rooting after mutation).
Returns `none` when a regular file occupies a proper prefix of `p`
(an OS error in Python). -/
def FSNode.setNode (node : FSNode) (p : List String) (n : FSNode) : Option FSNode :=
  match p with
  | [] => some n
  | s :: rest =>
    match node with
    | .file _ => none
    | .dir ch =>
      match ch.find? (fun c => c.1 = s) with
      | some c => (c.2.setNode rest n).map (fun c2 => .dir (setChild ch s c2))
      | none => ((FSNode.dir []).setNode rest n).map (fun c2 => .dir (setChild ch s c2))

/-- Remove the node at relative path `p` (for `unlink` / `rmtree`).
No-op when the path does not exist. -/
def FSNode.removeNode (node : FSNode) (p : List String) : FSNode :=
  match p with
  | [] => node
  | [s] =>
    match node with
    | .file c => .file c
    | .dir ch => .dir (ch.filter (fun c => ¬ c.1 = s))
  | s :: rest =>
    match node with
    | .file c => .file c
    | .dir ch =>
      match ch.find? (fun c => c.1 = s) with
      | some c => .dir (setChild ch s (c.2.removeNode rest))
      | none => .dir ch

end HomeShare

namespace HomeShare

/-! ## RangeTransmitter: `_send_file` (src/server.py:275-323)

The handler parses an optional `Range: bytes=(\d*)-(\d*)` header; a
request is modelled as `none` (no header, or a header the regex does
not match — both leave the full-content path) or `some r` with the two
optional captured numbers. -/

/-- Parsed `bytes=(\d*)-(\d*)` header: each group is `none` when the
digit string is empty. -/
structure RangeReq where
  start : Option Nat
  stop : Option Nat
  deriving DecidableEq, Repr

/-- Response of `_send_file` once the file exists: either 416 with the
total size disclosed in `Content-Range: bytes */N`, or a content
response carrying the numeric status (200 or 206), the declared
`Content-Length` (a Python int: it can be negative for an inverted
range), the `Content-Range` triple sent only on 206, and the body bytes
actually written by the send loop. -/
inductive FileResp where
  | notSatisfiable (total : Nat)
  | content (status : Nat) (contentLength : Int)
      (contentRange : Option (Int × Int × Int)) (body : List Nat)
  deriving DecidableEq, Repr

/-- Bytes written by the send loop: it seeks to `start` and reads until
`remaining` hits zero or EOF, so it serves
`min contentLength (size - start)` bytes (nothing when
`contentLength ≤ 0`, as `while remaining > 0` never runs). -/
def sendLoop (file : List Nat) (start : Nat) (contentLength : Int) : List Nat :=
  if contentLength ≤ 0 then [] else (file.drop start).take contentLength.toNat

/-- Embedding of the range arithmetic and body of `_send_file`
(src/server.py:280-323), after the existence check: `start` defaults
to 0 and `end` to `file_size - 1`; a start at or past the file size
yields 416 disclosing the size; an overrunning end is clamped to
`file_size - 1`; a matched range header forces status 206 and a
`Content-Range: bytes start-end/size` header. -/
def send_file (file : List Nat) (range : Option RangeReq) : FileResp :=
  let fileSize : Int := file.length
  match range with
  | none =>
    .content 200 (fileSize - 1 - 0 + 1) none (sendLoop file 0 (fileSize - 1 - 0 + 1))
  | some r =>
    let start : Int := match r.start with | some s => (s : Int) | none => 0
    let stop : Int := match r.stop with | some e => (e : Int) | none => fileSize - 1
    if start ≥ fileSize then .notSatisfiable file.length
    else
      let stop := if stop ≥ fileSize then fileSize - 1 else stop
      let contentLength := stop - start + 1
      .content 206 contentLength (some (start, stop, fileSize))
        (sendLoop file start.toNat contentLength)

/-! ## ArchiveStreamer: `_send_zip` (src/server.py:532-566)

The ZIP byte stream is abstracted as its lossless content: the ordered
list of archive entries (deflate compression preserves exactly this
information).  `arc` names are archive-relative segment paths. -/

/-- One archive member: an explicit directory entry (`writestr` of an
empty payload with a trailing-slash name) or a file entry with its
bytes. -/
inductive ZipEntry where
  | dirEntry (arc : List String)
  | fileEntry (arc : List String) (content : List Nat)
  deriving DecidableEq, Repr

mutual

/-- Entries emitted by the `os.walk(path)` loop for the directory node
at archive prefix `pre`: for each visited directory, first its files
(`zf.write`), then an explicit entry per subdirectory, then the
recursive walk of each subdirectory (top-down traversal). -/
def zipWalk (pre : List String) : FSNode → List ZipEntry
  | .file _ => []
  | .dir ch =>
    (ch.filterMap fun c =>
      match c.2 with
      | .file b => some (ZipEntry.fileEntry (pre ++ [c.1]) b)
      | .dir _ => none) ++
    (ch.filterMap fun c =>
      match c.2 with
      | .dir _ => some (ZipEntry.dirEntry (pre ++ [c.1]))
      | .file _ => none) ++
    zipWalkChildren pre ch
termination_by n => sizeOf n
decreasing_by all_goals simp_wf

/-- Recursive descent of `os.walk` into each subdirectory, in listing
order. -/
def zipWalkChildren (pre : List String) : List (String × FSNode) → List ZipEntry
  | [] => []
  | (name, .dir ch2) :: rest =>
    zipWalk (pre ++ [name]) (.dir ch2) ++ zipWalkChildren pre rest
  | (_, .file _) :: rest => zipWalkChildren pre rest
termination_by l => sizeOf l
decreasing_by all_goals (simp_wf <;> omega)

end

/-- Archive content assembled by the loop of `_send_zip`
(src/server.py:534-557) into the spooled temporary file: each
requested relative path is resolved through `_safe_join`; a directory
contributes its own explicit entry followed by its walk; a file
contributes a single entry; anything else aborts the whole assembly
with `FileNotFoundError` (`pathNotFound`), and a resolution failure
aborts it with `PermissionError` (`pathEscape`). -/
def buildZip (canon : List String → List String) (root : List String)
    (fs : FSNode) : List (List String) → Except Err (List ZipEntry)
  | [] => .ok []
  | rel :: rest =>
    match safe_join canon root rel with
    | .error _ => .error .pathEscape
    | .ok resolved =>
      match fs.lookup (resolved.drop root.length) with
      | some (.dir ch) =>
        (buildZip canon root fs rest).map
          (fun es => (ZipEntry.dirEntry rel :: zipWalk rel (.dir ch)) ++ es)
      | some (.file b) =>
        (buildZip canon root fs rest).map (fun es => ZipEntry.fileEntry rel b :: es)
      | none => .error .pathNotFound

/-- Response of `_send_zip`: only after the whole spool is assembled
and read back does the handler declare `Content-Length` (the size of
the full archive) and write the body, so the body and its declared
length are built from the same fully-determined content. -/
structure ZipResp where
  status : Nat
  contentLength : Nat
  body : List ZipEntry
  deriving DecidableEq, Repr

/-- Embedding of `_send_zip` (src/server.py:532-566): assemble the
archive; on failure the exception propagates before `send_response`,
so no response is produced; on success respond 200 with the declared
length equal to the assembled content's size. -/
def send_zip (canon : List String → List String) (root : List String)
    (fs : FSNode) (relPaths : List (List String)) : Except Err ZipResp :=
  (buildZip canon root fs relPaths).map (fun es => ⟨200, es.length, es⟩)

/-- Does a requested relative path resolve under the root (no
`PermissionError` from `_safe_join`)? -/
def resolvesUnderRoot (canon : List String → List String) (root : List String)
    (rel : List String) : Bool :=
  match safe_join canon root rel with
  | .ok _ => true
  | .error _ => false

/-- Does a requested relative path resolve to an existing filesystem
entry (file or directory) under the root? -/
def entryExists (canon : List String → List String) (root : List String)
    (fs : FSNode) (rel : List String) : Bool :=
  match safe_join canon root rel with
  | .ok p => (fs.lookup (p.drop root.length)).isSome
  | .error _ => false


/-! ## UploadManager (src/server.py:76-198)

Session ids (`uuid.uuid4().hex`) are modelled by a counter `nextId`
that never collides with an id already in the store — the model-level
reading of uuid uniqueness.  The `<id>.json` metadata files of the
state directory are the list `metas`, keyed by `upload_id`; the
`<id>.part` staging files are the list `temps`.  `time.time()` is the
constant `clock`. -/

/-- Persisted session metadata, the fields of the `meta` dict of
`create_session` (src/server.py:143-151); `temp_file` is determined by
`upload_id` and kept separately in `temps`. -/
structure Meta where
  upload_id : Nat
  target_path : List String
  total_size : Int
  received : Int
  overwrite : Bool
  created_at : Nat
  deriving DecidableEq, Repr

/-- Public view of a session (`_public_state`, src/server.py:107-111):
the metadata minus `temp_file`, plus the derived `completed` flag
`received >= total_size > 0`. -/
structure PubState where
  upload_id : Nat
  target_path : List String
  total_size : Int
  received : Int
  overwrite : Bool
  created_at : Nat
  completed : Bool
  deriving DecidableEq, Repr

/-- `_public_state` (src/server.py:107-111). -/
def public_state (m : Meta) : PubState :=
  { upload_id := m.upload_id
    target_path := m.target_path
    total_size := m.total_size
    received := m.received
    overwrite := m.overwrite
    created_at := m.created_at
    completed := decide (m.total_size ≤ m.received ∧ 0 < m.total_size) }

/-- State of the `UploadManager` together with the share tree it
finalizes into: `root`/`fs` are the canonical share root and the tree
below it, `metas`/`temps` the durable state directory, and
`overwriteDefault` the manager-level overwrite policy. -/
structure UM where
  root : List String
  fs : FSNode
  metas : List Meta
  temps : List (Nat × List Nat)
  overwriteDefault : Bool
  nextId : Nat
  clock : Nat

/-- Write-or-replace into a keyed file store (`_store_state` writes
`<id>.json`, overwriting any previous record with that key; the same
shape covers `<id>.part`). -/
def upsertBy (p : α → Bool) (a : α) (l : List α) : List α :=
  if l.any p then l.map (fun x => if p x then a else x) else l ++ [a]

/-- `_store_state` (src/server.py:100-105) on the metadata store. -/
def store_state (metas : List Meta) (m : Meta) : List Meta :=
  upsertBy (fun x => x.upload_id == m.upload_id) m metas

/-- Durable write of a staging file's bytes. -/
def storeTemp (temps : List (Nat × List Nat)) (id : Nat) (b : List Nat) :
    List (Nat × List Nat) :=
  upsertBy (fun t => t.1 == id) (id, b) temps

/-- `_load_state` (src/server.py:93-98): `none` models the
`FileNotFoundError` "Upload session not found". -/
def load_state (metas : List Meta) (id : Nat) : Option Meta :=
  metas.find? (fun m => m.upload_id == id)

/-- `temp_fp.seek(start); temp_fp.write(chunk)`: bytes before `off`
are kept (zero-filled when the file is shorter), the chunk overwrites
`chunk.length` bytes at `off`, bytes after it are kept. -/
def writeAt (file : List Nat) (off : Nat) (chunk : List Nat) : List Nat :=
  (file.take off ++ List.replicate (off - file.length) 0) ++ chunk ++
    file.drop (off + chunk.length)

/-- `shutil.move(temp_file, target_path)` (src/server.py:183): when the
destination is an existing directory the source is moved inside it
under its own basename `<id>.part`; otherwise the destination file is
created or replaced.  `none` models an OS error (a regular file on a
proper prefix of the destination). -/
def moveOnto (fs : FSNode) (dst : List String) (id : Nat) (bytes : List Nat) :
    Option FSNode :=
  if fs.isDir dst then fs.setNode (dst ++ [toString id ++ ".part"]) (.file bytes)
  else fs.setNode dst (.file bytes)

/-- `_finalize` (src/server.py:177-184): resolve the target, create its
parent directories, fail with `TargetExists` when the target exists and
overwrite is off (the parent `mkdir` side effect is kept), otherwise
move the staging bytes onto the target and delete both session files. -/
def finalize (st : UM) (meta : Meta) : UM × Except Err Unit :=
  match safe_join resolveLex st.root meta.target_path with
  | .error _ => (st, .error .pathEscape)
  | .ok target_path =>
    let rel := target_path.drop st.root.length
    match st.fs.mkdirp rel.dropLast with
    | none => (st, .error .osError)
    | some fs1 =>
      if fs1.pathExists rel && !meta.overwrite then
        ({ st with fs := fs1 }, .error .targetExists)
      else
        match st.temps.find? (fun t => t.1 == meta.upload_id) with
        | none => ({ st with fs := fs1 }, .error .stagingMissing)
        | some t =>
          match moveOnto fs1 rel meta.upload_id t.2 with
          | none => ({ st with fs := fs1 }, .error .osError)
          | some fs2 =>
            ({ st with
                fs := fs2
                metas := st.metas.filter (fun m => m.upload_id != meta.upload_id)
                temps := st.temps.filter (fun t2 => t2.1 != meta.upload_id) },
              .ok ())

/-- `create_session` (src/server.py:124-154): resolve and reject
directory targets, default the overwrite flag, and under the lock
either return an existing matching non-finalized session unchanged
(`resume`) or allocate a fresh id, persist the metadata and touch an
empty staging file. -/
def create_session (st : UM) (target_relative : List String) (total_size : Int)
    (resume : Bool) (overwrite : Option Bool) : UM × Except Err PubState :=
  match safe_join resolveLex st.root target_relative with
  | .error _ => (st, .error .pathEscape)
  | .ok target_path =>
    if st.fs.isDir (target_path.drop st.root.length) then (st, .error .targetIsDir)
    else
      let ow := overwrite.getD st.overwriteDefault
      match (if resume then
          st.metas.find? (fun m =>
            m.target_path == target_relative && m.total_size == total_size)
        else none) with
      | some state => (st, .ok (public_state state))
      | none =>
        let upload_id := st.nextId
        let meta : Meta :=
          { upload_id := upload_id
            target_path := target_relative
            total_size := total_size
            received := 0
            overwrite := ow
            created_at := st.clock }
        ({ st with
            metas := store_state st.metas meta
            temps := storeTemp st.temps upload_id []
            nextId := st.nextId + 1 },
          .ok (public_state meta))

/-- `append_chunk` (src/server.py:156-175): load the session, reject a
chunk whose start is not the current offset (`SequenceMismatch`), an
inverted range, or a chunk past the declared size; write the bytes into
the staging file, persist the advanced offset, and when the session is
now complete run `_finalize` — whose exception propagates after the
offset was already durably advanced. -/
def append_chunk (st : UM) (upload_id : Nat) (start end_exclusive : Int)
    (chunk : List Nat) : UM × Except Err PubState :=
  match load_state st.metas upload_id with
  | none => (st, .error .sessionNotFound)
  | some meta =>
    if meta.received ≠ start then (st, .error .sequenceMismatch)
    else if end_exclusive < start then (st, .error .invalidRangeEnd)
    else if meta.total_size < end_exclusive then (st, .error .chunkExceedsSize)
    else
      match st.temps.find? (fun t => t.1 == upload_id) with
      | none => (st, .error .stagingMissing)
      | some t =>
        let meta2 := { meta with received := end_exclusive }
        let st1 := { st with
          temps := storeTemp st.temps upload_id (writeAt t.2 start.toNat chunk)
          metas := store_state st.metas meta2 }
        if meta2.total_size ≤ meta2.received then
          match finalize st1 meta2 with
          | (st2, .error e) => (st2, .error e)
          | (st2, .ok _) => (st2, .ok (public_state meta2))
        else (st1, .ok (public_state meta2))

/-- `status` (src/server.py:191-194): read-only public view. -/
def status (st : UM) (upload_id : Nat) : UM × Except Err PubState :=
  (st,
    match load_state st.metas upload_id with
    | none => .error .sessionNotFound
    | some meta => .ok (public_state meta))

/-- `cancel` (src/server.py:196-198): delete metadata and staging file;
idempotent, no error when the session does not exist. -/
def cancel (st : UM) (upload_id : Nat) : UM × Except Err Unit :=
  ({ st with
      metas := st.metas.filter (fun m => m.upload_id != upload_id)
      temps := st.temps.filter (fun t => t.1 != upload_id) },
    .ok ())


/-- Per-session invariant claimed by the data model: a non-negative
received offset that never exceeds a non-negative declared size. -/
def sessionInv (m : Meta) : Prop :=
  0 ≤ m.received ∧ (0 ≤ m.total_size → m.received ≤ m.total_size)

/-- Store sanity: every stored id is below the id counter (freshness of
`uuid4` in the model) and ids are pairwise distinct (one `<id>.json`
file per id). -/
def storeWF (st : UM) : Prop :=
  (∀ m ∈ st.metas, m.upload_id < st.nextId) ∧
    (st.metas.map (fun m => m.upload_id)).Nodup

/-- Every session of the store satisfies the per-session invariant and
the store is sane. -/
def Good (st : UM) : Prop :=
  (∀ m ∈ st.metas, sessionInv m) ∧ storeWF st

/-- The received offset of any session surviving a transition never
decreases. -/
def offsetsMono (st st2 : UM) : Prop :=
  ∀ m ∈ st.metas, ∀ m2 ∈ st2.metas,
    m2.upload_id = m.upload_id → m.received ≤ m2.received

/-! ## Handler layer (`HomeShareHandler`, src/server.py:201-528)

Only the read-only gate, the JSON-validation outcome and the
exception-to-status translation are modelled; socket plumbing is
outside the model.  `Config` is the slice of `ServerConfig` the gate
reads. -/

/-- The handler configuration bit read by `_require_write`
(src/server.py:325-329); the remaining `ServerConfig` fields (paths,
host, port) are connection plumbing outside the model. -/
structure Config where
  read_only : Bool
  deriving DecidableEq, Repr

/-- Python exception classes the handlers catch. -/
inductive PyExc where
  | valueError
  | keyError
  | fileNotFoundError
  | fileExistsError
  | permissionError
  | osError
  deriving DecidableEq, Repr

/-- The exception class each engine error is raised as in
src/server.py. -/
def excClass : Err → PyExc
  | .pathEscape => .permissionError
  | .sessionNotFound => .fileNotFoundError
  | .sequenceMismatch => .valueError
  | .invalidRangeEnd => .valueError
  | .chunkExceedsSize => .valueError
  | .targetIsDir => .valueError
  | .targetExists => .fileExistsError
  | .pathNotFound => .fileNotFoundError
  | .stagingMissing => .fileNotFoundError
  | .osError => .osError

/-- Status sent by the except-clauses of the upload-session POST
handler (src/server.py:399-404): `KeyError`/`ValueError` → 400,
`PermissionError` → 403; anything uncaught is a 500 from the server
machinery. -/
def postSessionStatus : PyExc → Nat
  | .keyError => 400
  | .valueError => 400
  | .permissionError => 403
  | _ => 500

/-- Status sent by the except-clauses of the chunk PUT handler
(src/server.py:508-516): `FileNotFoundError` → 404,
`ValueError`/`FileExistsError` → 400, `PermissionError` → 403. -/
def putChunkStatus : PyExc → Nat
  | .fileNotFoundError => 404
  | .valueError => 400
  | .fileExistsError => 400
  | .permissionError => 403
  | _ => 500

/-- `POST /api/upload/session` (src/server.py:389-406): gate on the
read-only flag first, then parse the body (`none` models missing or
malformed fields → 400), then `create_session` with errors translated
by the except-clauses.  Returns the resulting store and the status
sent. -/
def do_post_upload_session (cfg : Config) (st : UM)
    (body : Option (List String × Int × Bool × Option Bool)) : UM × Nat :=
  if cfg.read_only then (st, 403)
  else
    match body with
    | none => (st, 400)
    | some (target, size, resume, overwrite) =>
      match create_session st target size resume overwrite with
      | (st2, .ok _) => (st2, 201)
      | (st2, .error e) => (st2, postSessionStatus (excClass e))

/-- `POST /api/mkdir` (src/server.py:407-422): gate first, then resolve
and create the directory tree. -/
def do_post_mkdir (cfg : Config) (st : UM) (body : Option (List String)) :
    UM × Nat :=
  if cfg.read_only then (st, 403)
  else
    match body with
    | none => (st, 400)
    | some rel =>
      match safe_join resolveLex st.root rel with
      | .error _ => (st, 403)
      | .ok tp =>
        match st.fs.mkdirp (tp.drop st.root.length) with
        | some fs2 => ({ st with fs := fs2 }, 200)
        | none => (st, 500)

/-- `POST /api/delete` (src/server.py:423-446): gate first, then
`rmtree` a directory, `unlink` a file, 404 otherwise. -/
def do_post_delete (cfg : Config) (st : UM) (body : Option (List String)) :
    UM × Nat :=
  if cfg.read_only then (st, 403)
  else
    match body with
    | none => (st, 400)
    | some rel =>
      match safe_join resolveLex st.root rel with
      | .error _ => (st, 403)
      | .ok tp =>
        let r := tp.drop st.root.length
        if st.fs.isDir r then ({ st with fs := st.fs.removeNode r }, 200)
        else if st.fs.pathExists r then ({ st with fs := st.fs.removeNode r }, 200)
        else (st, 404)

/-- `POST /api/move` (src/server.py:447-466): gate first, resolve both
ends, create the destination's parents, then `shutil.move` (into an
existing destination directory under the source's basename, else onto
the destination path). -/
def do_post_move (cfg : Config) (st : UM)
    (body : Option (List String × List String)) : UM × Nat :=
  if cfg.read_only then (st, 403)
  else
    match body with
    | none => (st, 400)
    | some (src, dst) =>
      match safe_join resolveLex st.root src with
      | .error _ => (st, 403)
      | .ok sp =>
        match safe_join resolveLex st.root dst with
        | .error _ => (st, 403)
        | .ok dp =>
          let rs := sp.drop st.root.length
          let rd := dp.drop st.root.length
          match st.fs.mkdirp rd.dropLast with
          | none => (st, 500)
          | some fs1 =>
            match fs1.lookup rs with
            | none => (st, 404)
            | some node =>
              let fs2 := fs1.removeNode rs
              match (if fs2.isDir rd then
                  fs2.setNode (rd ++ [(rs.getLastD "")]) node
                else fs2.setNode rd node) with
              | some fs3 => ({ st with fs := fs3 }, 200)
              | none => (st, 500)

/-- `PUT /api/upload/<id>` (src/server.py:485-517): gate first, then
require and parse the `Content-Range: bytes a-b/t` header, check the
declared length, and append the chunk with errors translated by the
except-clauses. -/
def do_put_upload (cfg : Config) (st : UM) (upload_id : Nat)
    (contentRange : Option (Nat × Nat × Nat)) (length : Nat)
    (chunk : List Nat) : UM × Nat :=
  if cfg.read_only then (st, 403)
  else
    match contentRange with
    | none => (st, 400)
    | some (start, stop, _total) =>
      if (length : Int) ≠ (stop : Int) - (start : Int) + 1 then (st, 400)
      else
        match append_chunk st upload_id (start : Int) ((stop : Int) + 1) chunk with
        | (st2, .ok _) => (st2, 200)
        | (st2, .error e) => (st2, putChunkStatus (excClass e))

/-- `DELETE /api/upload/<id>` (src/server.py:519-528): cancels the
session and answers 200.  This handler never calls `_require_write`,
so the `cfg` parameter is read by nothing. -/
def do_delete_upload (_cfg : Config) (st : UM) (upload_id : Nat) : UM × Nat :=
  ((cancel st upload_id).1, 200)

/-- The error taxonomy of the specification. -/
inductive FailureKind where
  | pathEscape
  | sessionNotFound
  | sequenceMismatch
  | rangeInvalid
  | targetExists
  | pathNotFound
  | forbidden
  | badRequest
  deriving DecidableEq, Repr

/-- The HTTP status each failure kind of the taxonomy is surfaced with:
the upload kinds through the chunk handler's except-clauses
(src/server.py:508-516), `PathNotFound` through the 404 clauses of the
zip/list/download handlers (src/server.py:361, 437, 457, 479),
`Forbidden` through `_require_write` (src/server.py:327) and
`BadRequest` through the 400 clauses on malformed bodies
(src/server.py:399, 415, 439, 459, 473, 495-503). -/
def statusOf : FailureKind → Nat
  | .pathEscape => putChunkStatus (excClass .pathEscape)
  | .sessionNotFound => putChunkStatus (excClass .sessionNotFound)
  | .sequenceMismatch => putChunkStatus (excClass .sequenceMismatch)
  | .rangeInvalid => putChunkStatus (excClass .invalidRangeEnd)
  | .targetExists => putChunkStatus (excClass .targetExists)
  | .pathNotFound => 404
  | .forbidden => 403
  | .badRequest => 400


/-- C1: for every root `R`, every client-supplied relative path and every
canonicalization behaviour of the filesystem (symlinks included),
`_safe_join` either fails with `PathEscape` or returns a canonicalized
path of which `R` is a prefix — never a path outside `R`. -/
theorem safe_join_confined (canon : List String → List String)
    (root relative : List String) :
    safe_join canon root relative = .error .pathEscape ∨
      ∃ p, safe_join canon root relative = .ok p ∧ root <+: p := by
  unfold safe_join
  dsimp only
  split
  · split
    · next h => exact Or.inr ⟨_, rfl, List.isPrefixOf_iff_prefix.mp h⟩
    · exact Or.inl rfl
  · split
    · next h => exact Or.inr ⟨_, rfl, List.isPrefixOf_iff_prefix.mp h⟩
    · exact Or.inl rfl

/-- C4: for a served file of size `N > 0`: a range request with
`start = N-1` and no end yields status 206 with exactly 1 byte and a
`Content-Range` of `N-1 .. N-1 / N`; a request with `start ≥ N` yields
416 with the total size `N` disclosed; and an end offset `≥ N` is
clamped to `N-1`, so that exactly `(N-1) - start + 1 = N - start`
bytes are declared and served. -/
theorem send_file_range_arithmetic (file : List Nat) (hN : 0 < file.length) :
    (send_file file (some ⟨some (file.length - 1), none⟩) =
        .content 206 1
          (some ((file.length : Int) - 1, (file.length : Int) - 1, (file.length : Int)))
          ((file.drop (file.length - 1)).take 1) ∧
      ((file.drop (file.length - 1)).take 1).length = 1) ∧
    (∀ s : Nat, file.length ≤ s → ∀ e,
      send_file file (some ⟨some s, e⟩) = .notSatisfiable file.length) ∧
    (∀ s e : Nat, s < file.length → file.length ≤ e →
      send_file file (some ⟨some s, some e⟩) =
          .content 206 ((file.length : Int) - s)
            (some ((s : Int), (file.length : Int) - 1, (file.length : Int)))
            ((file.drop s).take (file.length - s)) ∧
        ((file.drop s).take (file.length - s)).length = file.length - s) := by
  refine ⟨⟨?_, ?_⟩, ?_, ?_⟩
  · unfold send_file sendLoop
    dsimp only
    rw [(by omega : ((file.length - 1 : Nat) : Int) = (file.length : Int) - 1)]
    rw [if_neg (by omega : ¬((file.length : Int) - 1 ≥ (file.length : Int)))]
    rw [ite_self]
    rw [(by ring : ((file.length : Int) - 1) - ((file.length : Int) - 1) + 1 = 1)]
    rw [if_neg (by norm_num : ¬((1 : Int) ≤ 0))]
    rw [(by omega : ((file.length : Int) - 1).toNat = file.length - 1)]
    norm_num
  · rw [List.length_take, List.length_drop]
    omega
  · intro s hs e
    unfold send_file
    dsimp only
    rw [if_pos (by omega : ((s : Nat) : Int) ≥ (file.length : Int))]
  · intro s e hs he
    constructor
    · unfold send_file sendLoop
      dsimp only
      rw [if_neg (by omega : ¬(((s : Nat) : Int) ≥ (file.length : Int)))]
      rw [if_pos (by omega : ((e : Nat) : Int) ≥ (file.length : Int))]
      rw [(by ring : ((file.length : Int) - 1) - (s : Int) + 1 = (file.length : Int) - s)]
      rw [if_neg (by omega : ¬((file.length : Int) - (s : Int) ≤ 0))]
      rw [(by omega : ((s : Nat) : Int).toNat = s)]
      rw [(by omega : ((file.length : Int) - (s : Int)).toNat = file.length - s)]
    · rw [List.length_take, List.length_drop]
      omega

/-- Witness for `send_file_range_arithmetic` at the concrete file
`[10, 20, 30]` (size 3): the last-byte request, an out-of-range start,
and a clamped end. -/
theorem send_file_range_arithmetic_witness :
    0 < ([10, 20, 30] : List Nat).length ∧
      send_file [10, 20, 30] (some ⟨some 2, none⟩) =
        .content 206 1 (some (2, 2, 3)) [30] ∧
      send_file [10, 20, 30] (some ⟨some 3, none⟩) = .notSatisfiable 3 ∧
      send_file [10, 20, 30] (some ⟨some 1, some 9⟩) =
        .content 206 2 (some (1, 2, 3)) [20, 30] := by
  have h := send_file_range_arithmetic [10, 20, 30] (by decide)
  refine ⟨by decide, ?_, ?_, ?_⟩
  · have := h.1.1
    simpa using this
  · exact h.2.1 3 (by decide) none
  · have := (h.2.2 1 9 (by decide) (by decide)).1
    simpa using this

theorem resolvesUnderRoot_iff (canon : List String → List String)
    (root rel : List String) :
    resolvesUnderRoot canon root rel = true ↔
      ∃ p, safe_join canon root rel = .ok p := by
  unfold resolvesUnderRoot
  cases h : safe_join canon root rel <;> simp

theorem buildZip_error_of_missing (canon : List String → List String)
    (root : List String) (fs : FSNode) (paths : List (List String))
    (hres : ∀ rel ∈ paths, resolvesUnderRoot canon root rel = true)
    (hmiss : ∃ rel ∈ paths, entryExists canon root fs rel = false) :
    buildZip canon root fs paths = .error .pathNotFound := by
  induction paths with
  | nil => obtain ⟨rel, h, _⟩ := hmiss; simp at h
  | cons rel rest ih =>
    obtain ⟨p, hp⟩ := (resolvesUnderRoot_iff canon root rel).mp (hres rel (by simp))
    obtain ⟨bad, hbadmem, hbad⟩ := hmiss
    unfold buildZip
    rw [hp]
    dsimp only
    cases hlk : fs.lookup (p.drop root.length) with
    | none => rfl
    | some node =>
      have hbadrest : bad ∈ rest := by
        rcases List.mem_cons.mp hbadmem with heq | hmem
        · exfalso
          subst heq
          unfold entryExists at hbad
          rw [hp] at hbad
          dsimp only at hbad
          rw [hlk] at hbad
          simp at hbad
        · exact hmem
      have hrest : buildZip canon root fs rest = .error .pathNotFound :=
        ih (fun r hr => hres r (by simp [hr])) ⟨bad, hbadrest, hbad⟩
      cases node with
      | dir ch => rw [hrest]; rfl
      | file b => rw [hrest]; rfl

theorem buildZip_ok_of_all_exist (canon : List String → List String)
    (root : List String) (fs : FSNode) (paths : List (List String))
    (hall : ∀ rel ∈ paths, entryExists canon root fs rel = true) :
    ∃ es, buildZip canon root fs paths = .ok es := by
  induction paths with
  | nil => exact ⟨[], rfl⟩
  | cons rel rest ih =>
    have hrel := hall rel (by simp)
    unfold entryExists at hrel
    obtain ⟨es, hes⟩ := ih (fun r hr => hall r (by simp [hr]))
    unfold buildZip
    cases hp : safe_join canon root rel with
    | error e => rw [hp] at hrel; simp at hrel
    | ok p =>
      rw [hp] at hrel
      dsimp only at hrel
      dsimp only
      cases hlk : fs.lookup (p.drop root.length) with
      | none => rw [hlk] at hrel; simp at hrel
      | some node =>
        cases node with
        | dir ch => rw [hes]; exact ⟨_, rfl⟩
        | file b => rw [hes]; exact ⟨_, rfl⟩

/-- C9: when every requested path of an archive request resolves under
the root but some path denotes neither an existing file nor an existing
directory, the whole ZIP operation fails with `PathNotFound` and no
archive response is produced; when every path exists, the response
carries the fully assembled content with the declared `Content-Length`
equal to the size of that content, both fixed before anything is
sent. -/
theorem send_zip_whole_or_nothing (canon : List String → List String)
    (root : List String) (fs : FSNode) (paths : List (List String)) :
    ((∀ rel ∈ paths, resolvesUnderRoot canon root rel = true) →
      (∃ rel ∈ paths, entryExists canon root fs rel = false) →
      send_zip canon root fs paths = .error .pathNotFound) ∧
    ((∀ rel ∈ paths, entryExists canon root fs rel = true) →
      ∃ es, send_zip canon root fs paths = .ok ⟨200, es.length, es⟩) := by
  constructor
  · intro hres hmiss
    unfold send_zip
    rw [buildZip_error_of_missing canon root fs paths hres hmiss]
    rfl
  · intro hall
    obtain ⟨es, hes⟩ := buildZip_ok_of_all_exist canon root fs paths hall
    refine ⟨es, ?_⟩
    unfold send_zip
    rw [hes]
    rfl

/-- Witness for `send_zip_whole_or_nothing` on a concrete share holding
one file and one directory with an empty subdirectory: a request
containing a missing path fails whole, a request of existing paths
yields the full archive with matching declared length. -/
theorem send_zip_whole_or_nothing_witness :
    send_zip resolveLex []
        (.dir [("a", .file [1, 2]), ("d", .dir [("e", .dir [])])])
        [["a"], ["missing"]] = .error .pathNotFound ∧
      ∃ es, send_zip resolveLex []
        (.dir [("a", .file [1, 2]), ("d", .dir [("e", .dir [])])])
        [["d"], ["a"]] = .ok ⟨200, es.length, es⟩ := by
  constructor
  · exact (send_zip_whole_or_nothing resolveLex []
      (.dir [("a", .file [1, 2]), ("d", .dir [("e", .dir [])])])
      [["a"], ["missing"]]).1 (by decide) ⟨["missing"], by decide, by decide⟩
  · exact (send_zip_whole_or_nothing resolveLex []
      (.dir [("a", .file [1, 2]), ("d", .dir [("e", .dir [])])])
      [["d"], ["a"]]).2 (by decide)

theorem find?_upsertBy (p : α → Bool) (a : α) (ha : p a = true) (l : List α) :
    (upsertBy p a l).find? p = some a := by
  unfold upsertBy
  split
  · next h =>
    induction l with
    | nil => simp at h
    | cons x xs ih =>
      simp only [List.map_cons]
      by_cases hx : p x
      · rw [if_pos hx, List.find?_cons_of_pos _ ha]
      · rw [if_neg hx, List.find?_cons_of_neg _ hx]
        exact ih (by simpa [List.any_cons, hx] using h)
  · next h =>
    rw [List.find?_append,
      List.find?_eq_none.mpr (fun x hx => by
        intro hpx
        exact h (List.any_eq_true.mpr ⟨x, hx, hpx⟩)),
      List.find?_cons_of_pos _ ha]
    rfl

theorem upsertBy_of_not_any (p : α → Bool) (a : α) (l : List α)
    (h : l.any p = false) : upsertBy p a l = l ++ [a] := by
  unfold upsertBy
  rw [if_neg (by simp [h])]

theorem upsertBy_of_any (p : α → Bool) (a : α) (l : List α)
    (h : l.any p = true) : upsertBy p a l = l.map (fun x => if p x then a else x) := by
  unfold upsertBy
  rw [if_pos h]

/-- C2: appending a chunk to an existing session whose start offset is
not the session's current received offset fails with
`SequenceMismatch` (a `ValueError`), and the whole store — session
record, persisted metadata and staging bytes — is exactly the state
before the call. -/
theorem append_chunk_sequence_mismatch (st : UM) (id : Nat)
    (start end_exclusive : Int) (chunk : List Nat) (meta : Meta)
    (hfound : load_state st.metas id = some meta)
    (hneq : meta.received ≠ start) :
    append_chunk st id start end_exclusive chunk = (st, .error .sequenceMismatch) := by
  unfold append_chunk
  rw [hfound]
  dsimp only
  rw [if_pos hneq]

/-- Witness for `append_chunk_sequence_mismatch`: a session at offset 3
rejects a chunk starting at 5 and the store is untouched. -/
theorem append_chunk_sequence_mismatch_witness :
    load_state (UM.mk [] (.dir []) [⟨0, ["f"], 10, 3, false, 0⟩]
        [(0, [1, 1, 1])] false 1 0).metas 0 = some ⟨0, ["f"], 10, 3, false, 0⟩ ∧
      append_chunk (UM.mk [] (.dir []) [⟨0, ["f"], 10, 3, false, 0⟩]
        [(0, [1, 1, 1])] false 1 0) 0 5 7 [9, 9] =
        (UM.mk [] (.dir []) [⟨0, ["f"], 10, 3, false, 0⟩]
          [(0, [1, 1, 1])] false 1 0, .error .sequenceMismatch) :=
  ⟨by decide, append_chunk_sequence_mismatch _ 0 5 7 [9, 9]
    ⟨0, ["f"], 10, 3, false, 0⟩ (by decide) (by decide)⟩

/-- C5: creating a session with `resume = true` twice for the same
`(targetPath, totalSize)` pair returns the same session id both times,
and the second call leaves the store exactly as the first left it.
The hypothesis that `nextId` is not already in use is the model-level
reading of `uuid4` uniqueness. -/
theorem create_session_resume_idempotent (st : UM) (t : List String) (s : Int)
    (ow : Option Bool)
    (hfresh : ∀ m ∈ st.metas, m.upload_id ≠ st.nextId)
    (st1 : UM) (v1 : PubState)
    (h1 : create_session st t s true ow = (st1, .ok v1)) :
    ∃ v2, create_session st1 t s true ow = (st1, .ok v2) ∧
      v2.upload_id = v1.upload_id := by
  unfold create_session at h1 ⊢
  cases hj : safe_join resolveLex st.root t with
  | error e => rw [hj] at h1; simp at h1
  | ok tp =>
    rw [hj] at h1
    dsimp only at h1
    by_cases hd : st.fs.isDir (tp.drop st.root.length) = true
    · rw [if_pos hd] at h1; simp at h1
    · rw [if_neg hd, if_pos rfl] at h1
      cases hf : st.metas.find?
          (fun m => m.target_path == t && m.total_size == s) with
      | some m0 =>
        rw [hf] at h1
        simp only [Prod.mk.injEq, Except.ok.injEq] at h1
        obtain ⟨h1a, h1b⟩ := h1
        subst h1a
        subst h1b
        rw [hj]
        dsimp only
        rw [if_neg hd, if_pos rfl, hf]
        exact ⟨public_state m0, rfl, rfl⟩
      | none =>
        rw [hf] at h1
        dsimp only at h1
        simp only [Prod.mk.injEq, Except.ok.injEq] at h1
        obtain ⟨h1a, h1b⟩ := h1
        subst h1a
        subst h1b
        dsimp only
        rw [hj]
        dsimp only
        rw [if_neg hd, if_pos rfl]
        rw [store_state, upsertBy_of_not_any _ _ _ (by
          rw [List.any_eq_false]
          intro x hx
          simpa using hfresh x hx)]
        rw [List.find?_append, hf]
        rw [List.find?_cons_of_pos _ (by simp)]
        exact ⟨_, rfl, rfl⟩

/-- Witness for `create_session_resume_idempotent`: on an empty store,
the first resumed create for `("f", 4)` allocates session 0 and the
second returns session 0 again without changing the store. -/
theorem create_session_resume_idempotent_witness :
    (∀ m ∈ (UM.mk [] (.dir []) [] [] false 0 0).metas, m.upload_id ≠ 0) ∧
      ∃ v2, create_session
          (create_session (UM.mk [] (.dir []) [] [] false 0 0) ["f"] 4 true none).1
          ["f"] 4 true none =
          ((create_session (UM.mk [] (.dir []) [] [] false 0 0) ["f"] 4 true none).1,
            .ok v2) ∧
        v2.upload_id =
          ((create_session (UM.mk [] (.dir []) [] [] false 0 0) ["f"] 4 true none).2.toOption.getD
            (public_state ⟨0, [], 0, 0, false, 0⟩)).upload_id := by
  refine ⟨by simp, ?_⟩
  have h := create_session_resume_idempotent (UM.mk [] (.dir []) [] [] false 0 0)
    ["f"] 4 none (by simp)
    (create_session (UM.mk [] (.dir []) [] [] false 0 0) ["f"] 4 true none).1
    (public_state ⟨0, ["f"], 4, 0, false, 0⟩) rfl
  obtain ⟨v2, hv2, hid⟩ := h
  exact ⟨v2, hv2, by rw [hid]; decide⟩

/-- C10: when the target relative path of a session-create request
resolves to an existing directory under the share root, the request
fails with the `ValueError` "Target path points to a directory", the
store is unchanged (no session metadata, no staging file), and the
POST handler surfaces it as a 400 `BadRequest`. -/
theorem create_session_rejects_directory_target (st : UM) (t : List String)
    (s : Int) (resume : Bool) (ow : Option Bool) (tp : List String)
    (hjoin : safe_join resolveLex st.root t = .ok tp)
    (hdir : st.fs.isDir (tp.drop st.root.length) = true) :
    create_session st t s resume ow = (st, .error .targetIsDir) ∧
      do_post_upload_session ⟨false⟩ st (some (t, s, resume, ow)) = (st, 400) := by
  have hc : create_session st t s resume ow = (st, .error .targetIsDir) := by
    unfold create_session
    rw [hjoin]
    dsimp only
    rw [if_pos hdir]
  refine ⟨hc, ?_⟩
  unfold do_post_upload_session
  rw [if_neg (by simp)]
  dsimp only
  rw [hc]
  rfl

/-- Witness for `create_session_rejects_directory_target`: the share
holds a directory `d`, and a create targeting `d` is rejected without
touching the store. -/
theorem create_session_rejects_directory_target_witness :
    safe_join resolveLex [] ["d"] = .ok ["d"] ∧
      (FSNode.dir [("d", .dir [])]).isDir (["d"].drop 0) = true ∧
      create_session (UM.mk [] (.dir [("d", .dir [])]) [] [] false 0 0)
        ["d"] 9 false none =
        (UM.mk [] (.dir [("d", .dir [])]) [] [] false 0 0, .error .targetIsDir) :=
  ⟨rfl, by decide,
    (create_session_rejects_directory_target
      (UM.mk [] (.dir [("d", .dir [])]) [] [] false 0 0)
      ["d"] 9 false none ["d"] rfl (by decide)).1⟩

/-- C3: a chunk append that completes a session (`start` is the current
offset and `end_exclusive` equals the declared size) whose resolved
target already exists while overwrite is off fails with `TargetExists`
(`FileExistsError`), the pre-existing target's bytes are untouched,
and the session's metadata and staging file both still exist, with the
persisted received offset equal to the total size
(complete-but-unfinalized). -/
theorem append_chunk_target_exists (st : UM) (id : Nat) (chunk : List Nat)
    (meta : Meta) (tp : List String) (t0 : Nat × List Nat) (content : List Nat)
    (hfound : load_state st.metas id = some meta)
    (hle : meta.received ≤ meta.total_size)
    (hov : meta.overwrite = false)
    (hjoin : safe_join resolveLex st.root meta.target_path = .ok tp)
    (hmk : st.fs.mkdirp ((tp.drop st.root.length).dropLast) = some st.fs)
    (hex : st.fs.lookup (tp.drop st.root.length) = some (.file content))
    (htemp : st.temps.find? (fun x => x.1 == id) = some t0) :
    ∃ st2, append_chunk st id meta.received meta.total_size chunk =
        (st2, .error .targetExists) ∧
      st2.fs.lookup (tp.drop st.root.length) = some (.file content) ∧
      load_state st2.metas id = some { meta with received := meta.total_size } ∧
      st2.temps.find? (fun x => x.1 == id) =
        some (id, writeAt t0.2 meta.received.toNat chunk) := by
  have hid : meta.upload_id = id := by
    have := List.find?_some hfound
    simpa using this
  refine ⟨{ st with
      temps := storeTemp st.temps id (writeAt t0.2 meta.received.toNat chunk)
      metas := store_state st.metas { meta with received := meta.total_size } },
    ?_, ?_, ?_, ?_⟩
  · unfold append_chunk
    rw [hfound]
    dsimp only
    rw [if_neg (by simp)]
    rw [if_neg (by omega)]
    rw [if_neg (by omega)]
    rw [htemp]
    dsimp only
    rw [if_pos (by omega)]
    unfold finalize
    dsimp only
    rw [hjoin]
    dsimp only
    rw [hmk]
    dsimp only
    rw [if_pos (by
      unfold FSNode.pathExists
      rw [hex, hov]
      rfl)]
  · exact hex
  · unfold load_state store_state
    dsimp only
    rw [hid]
    exact find?_upsertBy _ _ (by simp) _
  · unfold storeTemp
    exact find?_upsertBy _ _ (by simp) _

/-- Witness for `append_chunk_target_exists`: the target `f` already
holds bytes `[7]`, the session is one byte short of its declared size
2, and the completing append fails with `TargetExists` while target,
metadata and staging bytes remain. -/
theorem append_chunk_target_exists_witness :
    ∃ st2, append_chunk
        (UM.mk [] (.dir [("f", .file [7])]) [⟨0, ["f"], 2, 1, false, 0⟩]
          [(0, [5])] false 1 0) 0 1 2 [6] = (st2, .error .targetExists) ∧
      st2.fs.lookup ["f"] = some (.file [7]) ∧
      load_state st2.metas 0 = some ⟨0, ["f"], 2, 2, false, 0⟩ ∧
      st2.temps.find? (fun x => x.1 == 0) = some (0, writeAt [5] 1 [6]) := by
  have h := append_chunk_target_exists
    (UM.mk [] (.dir [("f", .file [7])]) [⟨0, ["f"], 2, 1, false, 0⟩]
      [(0, [5])] false 1 0) 0 [6] ⟨0, ["f"], 2, 1, false, 0⟩ ["f"] (0, [5]) [7]
    (by decide) (by decide) (by decide) rfl rfl rfl (by decide)
  simpa using h

theorem eq_of_nodup_key (l : List Meta)
    (h : (l.map (fun m => m.upload_id)).Nodup) (m m2 : Meta)
    (hm : m ∈ l) (hm2 : m2 ∈ l) (hk : m2.upload_id = m.upload_id) : m = m2 :=
  List.inj_on_of_nodup_map h hm hm2 hk.symm

theorem offsetsMono_refl (st : UM) (hg : Good st) : offsetsMono st st := by
  intro m hm m2 hm2 hk
  have := eq_of_nodup_key st.metas hg.2.2 m m2 hm hm2 hk
  subst this
  exact le_refl _

theorem offsetsMono_of_subset (st st1 st2 : UM) (h : offsetsMono st st1)
    (hsub : ∀ x ∈ st2.metas, x ∈ st1.metas) : offsetsMono st st2 :=
  fun m hm m2 hm2 hk => h m hm m2 (hsub m2 hm2) hk

theorem Good_of_eq (st st2 : UM) (hg : Good st) (hm : st2.metas = st.metas)
    (hn : st2.nextId = st.nextId) : Good st2 := by
  refine ⟨?_, ?_, ?_⟩
  · rw [hm]; exact hg.1
  · rw [hm, hn]; exact hg.2.1
  · rw [hm]; exact hg.2.2

theorem Good_filter (st st2 : UM) (hg : Good st) (p : Meta → Bool)
    (hm : st2.metas = st.metas.filter p) (hn : st2.nextId = st.nextId) :
    Good st2 := by
  refine ⟨?_, ?_, ?_⟩
  · intro m hmem
    rw [hm] at hmem
    exact hg.1 m (List.mem_of_mem_filter hmem)
  · intro m hmem
    rw [hm] at hmem
    rw [hn]
    exact hg.2.1 m (List.mem_of_mem_filter hmem)
  · rw [hm]
    exact List.Nodup.sublist ((List.filter_sublist _).map _) hg.2.2

theorem map_key_replace (l : List Meta) (m2 : Meta) :
    ((l.map (fun x => if x.upload_id == m2.upload_id then m2 else x)).map
        (fun m => m.upload_id)) = l.map (fun m => m.upload_id) := by
  induction l with
  | nil => rfl
  | cons x xs ih =>
    simp only [List.map_cons, ih]
    by_cases hx : (x.upload_id == m2.upload_id) = true
    · have hxe : x.upload_id = m2.upload_id := by simpa using hx
      rw [if_pos hx]
      simp [hxe]
    · rw [if_neg hx]

theorem Good_replace (st : UM) (hg : Good st) (meta meta2 : Meta)
    (hmem : meta ∈ st.metas) (hkey : meta2.upload_id = meta.upload_id)
    (hinv2 : sessionInv meta2) (st2 : UM)
    (hm : st2.metas = store_state st.metas meta2)
    (hn : st2.nextId = st.nextId) : Good st2 := by
  have hany : st.metas.any (fun x => x.upload_id == meta2.upload_id) = true :=
    List.any_eq_true.mpr ⟨meta, hmem, by simp [hkey]⟩
  have hrepl := upsertBy_of_any (fun x => x.upload_id == meta2.upload_id) meta2
    st.metas hany
  rw [store_state, hrepl] at hm
  refine ⟨?_, ?_, ?_⟩
  · intro m hmem2
    rw [hm] at hmem2
    obtain ⟨x, hx, hfx⟩ := List.mem_map.mp hmem2
    by_cases hxk : (x.upload_id == meta2.upload_id) = true
    · rw [if_pos hxk] at hfx
      exact hfx ▸ hinv2
    · rw [if_neg hxk] at hfx
      exact hfx ▸ hg.1 x hx
  · intro m hmem2
    rw [hm] at hmem2
    rw [hn]
    obtain ⟨x, hx, hfx⟩ := List.mem_map.mp hmem2
    by_cases hxk : (x.upload_id == meta2.upload_id) = true
    · rw [if_pos hxk] at hfx
      subst hfx
      rw [hkey]
      exact hg.2.1 meta hmem
    · rw [if_neg hxk] at hfx
      exact hfx ▸ hg.2.1 x hx
  · rw [hm, map_key_replace]
    exact hg.2.2

theorem mono_replace (st : UM) (hg : Good st) (meta meta2 : Meta)
    (hmem : meta ∈ st.metas) (hkey : meta2.upload_id = meta.upload_id)
    (hle : meta.received ≤ meta2.received) (st2 : UM)
    (hm : st2.metas = store_state st.metas meta2) : offsetsMono st st2 := by
  have hany : st.metas.any (fun x => x.upload_id == meta2.upload_id) = true :=
    List.any_eq_true.mpr ⟨meta, hmem, by simp [hkey]⟩
  have hrepl := upsertBy_of_any (fun x => x.upload_id == meta2.upload_id) meta2
    st.metas hany
  rw [store_state, hrepl] at hm
  intro m hm1 m2 hm2 hk
  rw [hm] at hm2
  obtain ⟨x, hx, hfx⟩ := List.mem_map.mp hm2
  by_cases hxk : (x.upload_id == meta2.upload_id) = true
  · rw [if_pos hxk] at hfx
    subst hfx
    have hmm : m = meta := by
      refine eq_of_nodup_key st.metas hg.2.2 m meta hm1 hmem ?_
      rw [← hkey, ← hk]
    subst hmm
    omega
  · rw [if_neg hxk] at hfx
    subst hfx
    have hmm : m = x := eq_of_nodup_key st.metas hg.2.2 m x hm1 hx hk
    subst hmm
    exact le_refl _

theorem finalize_metas_shape (st : UM) (meta : Meta) :
    ((finalize st meta).1.metas = st.metas ∧
        (finalize st meta).1.nextId = st.nextId) ∨
      ((finalize st meta).1.metas =
          st.metas.filter (fun m => m.upload_id != meta.upload_id) ∧
        (finalize st meta).1.nextId = st.nextId) := by
  unfold finalize
  cases safe_join resolveLex st.root meta.target_path with
  | error e => exact Or.inl ⟨rfl, rfl⟩
  | ok tp =>
    dsimp only
    cases st.fs.mkdirp ((tp.drop st.root.length).dropLast) with
    | none => exact Or.inl ⟨rfl, rfl⟩
    | some fs1 =>
      dsimp only
      split
      · exact Or.inl ⟨rfl, rfl⟩
      · cases st.temps.find? (fun t => t.1 == meta.upload_id) with
        | none => exact Or.inl ⟨rfl, rfl⟩
        | some t =>
          dsimp only
          cases moveOnto fs1 (tp.drop st.root.length) meta.upload_id t.2 with
          | none => exact Or.inl ⟨rfl, rfl⟩
          | some fs2 => exact Or.inr ⟨rfl, rfl⟩

theorem Good_after_finalize (st st1 st2 : UM) (m2 : Meta) (r : Except Err Unit)
    (hg1 : Good st1) (hm1 : offsetsMono st st1)
    (hfin : finalize st1 m2 = (st2, r)) : Good st2 ∧ offsetsMono st st2 := by
  have hshape := finalize_metas_shape st1 m2
  rw [hfin] at hshape
  rcases hshape with ⟨ha, hb⟩ | ⟨ha, hb⟩
  · exact ⟨Good_of_eq st1 st2 hg1 ha hb,
      offsetsMono_of_subset st st1 st2 hm1 (fun x hx => by rw [ha] at hx; exact hx)⟩
  · exact ⟨Good_filter st1 st2 hg1 _ ha hb,
      offsetsMono_of_subset st st1 st2 hm1
        (fun x hx => List.mem_of_mem_filter (by rw [ha] at hx; exact hx))⟩

theorem Good_append_fresh (st : UM) (hg : Good st) (m : Meta) (st2 : UM)
    (hkey : m.upload_id = st.nextId) (hrec : m.received = 0)
    (hm : st2.metas = store_state st.metas m)
    (hn : st2.nextId = st.nextId + 1) : Good st2 ∧ offsetsMono st st2 := by
  have hnotany : st.metas.any (fun x => x.upload_id == m.upload_id) = false := by
    rw [List.any_eq_false]
    intro x hx
    have := hg.2.1 x hx
    simp only [beq_iff_eq]
    omega
  rw [store_state,
    upsertBy_of_not_any (fun x => x.upload_id == m.upload_id) m st.metas hnotany] at hm
  refine ⟨⟨?_, ?_, ?_⟩, ?_⟩
  · intro x hx
    rw [hm] at hx
    rcases List.mem_append.mp hx with h | h
    · exact hg.1 x h
    · have hxm : x = m := by simpa using h
      subst hxm
      exact ⟨le_of_eq hrec.symm, fun ht => by rw [hrec]; exact ht⟩
  · intro x hx
    rw [hm] at hx
    rw [hn]
    rcases List.mem_append.mp hx with h | h
    · exact Nat.lt_trans (hg.2.1 x h) (Nat.lt_succ_self _)
    · have hxm : x = m := by simpa using h
      subst hxm
      rw [hkey]
      exact Nat.lt_succ_self _
  · rw [hm, List.map_append]
    refine List.Nodup.append hg.2.2 (by simp) ?_
    intro a ha hb
    simp only [List.map_cons, List.map_nil, List.mem_singleton] at hb
    obtain ⟨x, hx, hxa⟩ := List.mem_map.mp ha
    have := hg.2.1 x hx
    omega
  · intro x hx x2 hx2 hk
    rw [hm] at hx2
    rcases List.mem_append.mp hx2 with h | h
    · have := eq_of_nodup_key st.metas hg.2.2 x x2 hx h hk
      subst this
      exact le_refl _
    · have hxm : x2 = m := by simpa using h
      subst hxm
      exfalso
      have := hg.2.1 x hx
      rw [hkey] at hk
      omega

/-- C6 (amended): assuming a sane store — all sessions satisfy
`0 ≤ receivedOffset`, and `receivedOffset ≤ totalSize` whenever
`totalSize ≥ 0`, with fresh distinct ids — every operation preserves
that invariant, every surviving session's received offset is
monotonically non-decreasing across `create_session`, `append_chunk`
and `cancel`, and `status` changes nothing.  The bound
`receivedOffset ≤ totalSize` must be conditioned on `0 ≤ totalSize`
because `create_session` accepts a negative declared size (see the
counterexample). -/
theorem upload_session_invariants (st : UM) (hg : Good st) :
    (∀ m ∈ st.metas,
      0 ≤ m.received ∧ (0 ≤ m.total_size → m.received ≤ m.total_size)) ∧
    (∀ t s resume ow,
      Good (create_session st t s resume ow).1 ∧
        offsetsMono st (create_session st t s resume ow).1) ∧
    (∀ id start endEx chunk,
      Good (append_chunk st id start endEx chunk).1 ∧
        offsetsMono st (append_chunk st id start endEx chunk).1) ∧
    (∀ id, (status st id).1 = st ∧ Good (cancel st id).1 ∧
      offsetsMono st (cancel st id).1) := by
  refine ⟨fun m hm => hg.1 m hm, ?_, ?_, ?_⟩
  · intro t s resume ow
    unfold create_session
    cases hj : safe_join resolveLex st.root t with
    | error e => exact ⟨hg, offsetsMono_refl st hg⟩
    | ok tp =>
      dsimp only
      by_cases hd : st.fs.isDir (tp.drop st.root.length) = true
      · rw [if_pos hd]
        exact ⟨hg, offsetsMono_refl st hg⟩
      · rw [if_neg hd]
        cases hf : (if resume then
            st.metas.find? (fun m => m.target_path == t && m.total_size == s)
          else none) with
        | some m0 => exact ⟨hg, offsetsMono_refl st hg⟩
        | none =>
          dsimp only
          exact Good_append_fresh st hg _ _ rfl rfl rfl rfl
  · intro id start endEx chunk
    unfold append_chunk
    cases hfo : load_state st.metas id with
    | none => exact ⟨hg, offsetsMono_refl st hg⟩
    | some meta =>
      dsimp only
      by_cases h1 : meta.received ≠ start
      · rw [if_pos h1]
        exact ⟨hg, offsetsMono_refl st hg⟩
      · rw [if_neg h1]
        by_cases h2 : endEx < start
        · rw [if_pos h2]
          exact ⟨hg, offsetsMono_refl st hg⟩
        · rw [if_neg h2]
          by_cases h3 : meta.total_size < endEx
          · rw [if_pos h3]
            exact ⟨hg, offsetsMono_refl st hg⟩
          · rw [if_neg h3]
            cases hte : st.temps.find? (fun x => x.1 == id) with
            | none => exact ⟨hg, offsetsMono_refl st hg⟩
            | some t0 =>
              dsimp only
              have hmem : meta ∈ st.metas := List.mem_of_find?_eq_some hfo
              have hstart : meta.received = start := not_not.mp h1
              have hinv := hg.1 meta hmem
              have hinv2 : sessionInv { meta with received := endEx } := by
                have h0 := hinv.1
                exact ⟨by dsimp only; omega, fun ht => by dsimp only at ht ⊢; omega⟩
              have hg1 : Good { st with
                  temps := storeTemp st.temps id (writeAt t0.2 start.toNat chunk)
                  metas := store_state st.metas { meta with received := endEx } } :=
                Good_replace st hg meta { meta with received := endEx } hmem rfl
                  hinv2 _ rfl rfl
              have hm1 : offsetsMono st { st with
                  temps := storeTemp st.temps id (writeAt t0.2 start.toNat chunk)
                  metas := store_state st.metas { meta with received := endEx } } :=
                mono_replace st hg meta { meta with received := endEx } hmem rfl
                  (by dsimp only; omega) _ rfl
              split
              · rcases hfin : finalize { st with
                    temps := storeTemp st.temps id (writeAt t0.2 start.toNat chunk)
                    metas := store_state st.metas { meta with received := endEx } }
                    { meta with received := endEx } with ⟨st2, r⟩
                cases r with
                | error e =>
                  exact Good_after_finalize st _ st2 _ _ hg1 hm1 hfin
                | ok u =>
                  exact Good_after_finalize st _ st2 _ _ hg1 hm1 hfin
              · exact ⟨hg1, hm1⟩
  · intro id
    refine ⟨rfl, ?_, ?_⟩
    · exact Good_filter st _ hg _ rfl rfl
    · exact offsetsMono_of_subset st st _ (offsetsMono_refl st hg)
        (fun x hx => List.mem_of_mem_filter hx)

/-- Witness for `upload_session_invariants`: a store holding one sane
session (offset 1 of size 4) is `Good`, and after appending the next
chunk the store is still `Good` and offsets did not decrease. -/
theorem upload_session_invariants_witness :
    Good (UM.mk [] (.dir []) [⟨0, ["f"], 4, 1, false, 0⟩] [(0, [5])] false 1 0) ∧
      Good (append_chunk
        (UM.mk [] (.dir []) [⟨0, ["f"], 4, 1, false, 0⟩] [(0, [5])] false 1 0)
        0 1 3 [6, 6]).1 ∧
      offsetsMono
        (UM.mk [] (.dir []) [⟨0, ["f"], 4, 1, false, 0⟩] [(0, [5])] false 1 0)
        (append_chunk
          (UM.mk [] (.dir []) [⟨0, ["f"], 4, 1, false, 0⟩] [(0, [5])] false 1 0)
          0 1 3 [6, 6]).1 := by
  have hgood : Good
      (UM.mk [] (.dir []) [⟨0, ["f"], 4, 1, false, 0⟩] [(0, [5])] false 1 0) := by
    refine ⟨?_, ?_, ?_⟩
    · intro m hm
      simp only [List.mem_singleton] at hm
      subst hm
      exact ⟨by norm_num, fun _ => by norm_num⟩
    · intro m hm
      simp only [List.mem_singleton] at hm
      subst hm
      norm_num
    · simp
  have h := upload_session_invariants _ hgood
  exact ⟨hgood, (h.2.2.1 0 1 3 [6, 6]).1, (h.2.2.1 0 1 3 [6, 6]).2⟩

/-- Counterexample to C6 as stated: `create_session` performs no
validation of the declared size, so a session with
`totalSize = -1 < 0` is created successfully, and it violates
`receivedOffset ≤ totalSize` since its received offset is 0. -/
theorem upload_session_invariants_counterexample :
    create_session (UM.mk [] (.dir []) [] [] false 0 0) ["f"] (-1) false none =
        (UM.mk [] (.dir []) [⟨0, ["f"], -1, 0, false, 0⟩] [(0, [])] false 1 0,
          .ok ⟨0, ["f"], -1, 0, false, 0, false⟩) ∧
      ¬ ((0 : Int) ≤ -1) :=
  ⟨rfl, by decide⟩

/-- C7 (amended): when the server is read-only, session creation, chunk
upload, mkdir, delete and move are all rejected with the fixed 403
`Forbidden` signal before any path resolution or session-store access,
and the state is unchanged.  Upload-session cancellation is NOT gated:
`do_DELETE` never calls `_require_write` (see the counterexample). -/
theorem read_only_gating (cfg : Config) (h : cfg.read_only = true) (st : UM) :
    (∀ body, do_post_upload_session cfg st body = (st, 403)) ∧
    (∀ id cr len chunk, do_put_upload cfg st id cr len chunk = (st, 403)) ∧
    (∀ body, do_post_mkdir cfg st body = (st, 403)) ∧
    (∀ body, do_post_delete cfg st body = (st, 403)) ∧
    (∀ body, do_post_move cfg st body = (st, 403)) := by
  refine ⟨?_, ?_, ?_, ?_, ?_⟩
  · intro body
    unfold do_post_upload_session
    rw [if_pos h]
  · intro id cr len chunk
    unfold do_put_upload
    rw [if_pos h]
  · intro body
    unfold do_post_mkdir
    rw [if_pos h]
  · intro body
    unfold do_post_delete
    rw [if_pos h]
  · intro body
    unfold do_post_move
    rw [if_pos h]

/-- Witness for `read_only_gating`: each gated endpoint of a read-only
server returns 403 and leaves a one-session store untouched. -/
theorem read_only_gating_witness :
    (Config.mk true).read_only = true ∧
      do_post_upload_session ⟨true⟩
        (UM.mk [] (.dir []) [⟨0, ["f"], 4, 1, false, 0⟩] [(0, [5])] false 1 0)
        (some (["g"], 7, false, none)) =
        (UM.mk [] (.dir []) [⟨0, ["f"], 4, 1, false, 0⟩] [(0, [5])] false 1 0, 403) ∧
      do_put_upload ⟨true⟩
        (UM.mk [] (.dir []) [⟨0, ["f"], 4, 1, false, 0⟩] [(0, [5])] false 1 0)
        0 (some (1, 2, 4)) 2 [6, 6] =
        (UM.mk [] (.dir []) [⟨0, ["f"], 4, 1, false, 0⟩] [(0, [5])] false 1 0, 403) ∧
      do_post_delete ⟨true⟩
        (UM.mk [] (.dir []) [⟨0, ["f"], 4, 1, false, 0⟩] [(0, [5])] false 1 0)
        (some ["f"]) =
        (UM.mk [] (.dir []) [⟨0, ["f"], 4, 1, false, 0⟩] [(0, [5])] false 1 0, 403) := by
  have h := read_only_gating ⟨true⟩ rfl
    (UM.mk [] (.dir []) [⟨0, ["f"], 4, 1, false, 0⟩] [(0, [5])] false 1 0)
  exact ⟨rfl, h.1 (some (["g"], 7, false, none)),
    h.2.1 0 (some (1, 2, 4)) 2 [6, 6], h.2.2.2.1 (some ["f"])⟩

/-- Counterexample to C7 as stated: with the server read-only, a
DELETE on an upload session is not rejected with `Forbidden` — the
handler never consults the read-only flag, answers 200 and deletes the
session's metadata and staging file. -/
theorem cancel_not_gated_counterexample :
    do_delete_upload ⟨true⟩
        (UM.mk [] (.dir []) [⟨0, ["f"], 4, 1, false, 0⟩] [(0, [5])] false 1 0) 0 =
        (UM.mk [] (.dir []) [] [] false 1 0, 200) ∧
      (200 : Nat) ≠ 403 ∧
      (UM.mk [] (.dir []) [⟨0, ["f"], 4, 1, false, 0⟩]
        [(0, [5])] false 1 0).metas ≠ [] :=
  ⟨rfl, by decide, by decide⟩

/-- C8 (amended): every failure kind of the taxonomy maps to a fixed,
stable status, but the mapping is into only three codes — `PathEscape`
and `Forbidden` share 403, `SessionNotFound` and `PathNotFound` share
404, and `SequenceMismatch`, `RangeInvalid`, `TargetExists` and
`BadRequest` all share 400 — so kinds within a group are not
distinguishable by status alone. -/
theorem statusOf_classification :
    (∀ k, statusOf k = 400 ∨ statusOf k = 403 ∨ statusOf k = 404) ∧
      statusOf .pathEscape = 403 ∧ statusOf .forbidden = 403 ∧
      statusOf .sessionNotFound = 404 ∧ statusOf .pathNotFound = 404 ∧
      statusOf .sequenceMismatch = 400 ∧ statusOf .rangeInvalid = 400 ∧
      statusOf .targetExists = 400 ∧ statusOf .badRequest = 400 := by
  refine ⟨?_, rfl, rfl, rfl, rfl, rfl, rfl, rfl, rfl⟩
  intro k
  cases k <;> simp [statusOf, putChunkStatus, excClass]

/-- Counterexample to C8 as stated: distinct failure kinds share a
status — `SequenceMismatch` and `BadRequest` both surface as 400,
`SessionNotFound` and `PathNotFound` both as 404, `PathEscape` and
`Forbidden` both as 403 — so the statuses of different kinds are not
pairwise distinct. -/
theorem statusOf_not_injective :
    statusOf .sequenceMismatch = statusOf .badRequest ∧
      FailureKind.sequenceMismatch ≠ FailureKind.badRequest ∧
      statusOf .sessionNotFound = statusOf .pathNotFound ∧
      FailureKind.sessionNotFound ≠ FailureKind.pathNotFound ∧
      statusOf .pathEscape = statusOf .forbidden ∧
      FailureKind.pathEscape ≠ FailureKind.forbidden :=
  ⟨rfl, by decide, rfl, by decide, rfl, by decide⟩

end HomeShare
